import Mathlib

/-!
Verification of the echo-chat frontend core against its natural-language
specification.

The development shallowly embeds the state-bearing parts of the frontend:

* `src/frontend/src/hooks/useWebSocket.ts` — the WebSocket `onmessage`
  handler that maintains the rendered transcript string and the segment list;
* `src/frontend/src/services/providerService.ts` — provider catalog fetching,
  caching and default resolution;
* `src/frontend/src/hooks/useProviders.ts` — provider/model selection;
* `src/frontend/src/components/ChatInterface.tsx` — the chat stream
  consumption loop.

JavaScript strings are modelled as `List Char`; `String.prototype.split(' ')`
and `Array.prototype.join(' ')` are embedded as executable list functions with
the exact JavaScript corner cases (splitting the empty string yields one empty
piece, etc.). JSON numbers are modelled as `Rat`, optional JSON fields as
`Option`.
-/

set_option maxHeartbeats 1000000

/-- A JavaScript string, modelled as its sequence of characters. -/
abbrev Str := List Char

/-- JavaScript `s.split(' ')`: splits on every single space character.
`splitSpaces []` is `[[]]`, matching JS where the empty string splits to
an array holding one empty string. -/
def splitSpaces : Str → List Str
  | [] => [[]]
  | c :: rest =>
    if c = ' ' then [] :: splitSpaces rest
    else
      match splitSpaces rest with
      | [] => [[c]]
      | w :: ws => (c :: w) :: ws

/-- JavaScript `parts.join(' ')`: interleaves one space between entries. -/
def joinSpaces : List Str → Str
  | [] => []
  | [w] => w
  | w :: ws => w ++ ' ' :: joinSpaces ws

/-! ## Data model of the WebSocket messages (`src/frontend/src/types/index.ts`) -/

/-- `TranscriptSegment` from `types/index.ts`: a timed, speaker-attributed
span of transcribed text, with an optional confidence. -/
structure TranscriptSegment where
  text : Str
  speaker : Str
  start_time : Rat
  end_time : Rat
  confidence : Option Rat
deriving DecidableEq, Repr

/-- `TranscriptResponse` from `types/index.ts`.  `segments` and `transcript`
are `Option`s because an incoming JSON payload may lack either field; the
handler tests them for JavaScript truthiness. -/
structure TranscriptResponse where
  is_final : Bool
  segments : Option (List TranscriptSegment)
  transcript : Option Str
deriving DecidableEq, Repr

/-- The transcript-related React state held by `useWebSocket`. -/
structure WsState where
  transcript : Str
  transcriptSegments : List TranscriptSegment
deriving DecidableEq, Repr

/-- Initial `useWebSocket` state: empty rendered transcript, no segments. -/
def initState : WsState := ⟨[], []⟩

/-- The predicate of the filter in the interim branch of
`setTranscriptSegments`: `seg.confidence !== undefined && seg.confidence > 0`. -/
def confPos (s : TranscriptSegment) : Bool :=
  match s.confidence with
  | some c => decide (0 < c)
  | none => false

/-- `data.segments.map(seg => seg.text).join(' ')` (useWebSocket.ts line 48). -/
def segText (segs : List TranscriptSegment) : Str :=
  joinSpaces (segs.map (fun s => s.text))

/-- The final branch of the `setTranscript` updater (line 51):
`prev + segmentText + ' '`. -/
def appendFinalText (txt prev : Str) : Str := prev ++ txt ++ [' ']

/-- The interim branch of the `setTranscript` updater (lines 54-56):
split the previous text on spaces, drop the last part, re-join, and append
the new text after a space when any part remains. -/
def interimText (txt prev : Str) : Str :=
  let parts := splitSpaces prev
  let finalParts := parts.dropLast
  joinSpaces finalParts ++ (if 0 < finalParts.length then [' '] else []) ++ txt

/-- The legacy branch of `ws.onmessage` (lines 61-72): when there is no
non-empty `segments` array but `data.transcript` is truthy, only the rendered
text is updated, with the same final/interim logic. -/
def oldFormat (d : TranscriptResponse) (st : WsState) : WsState :=
  match d.transcript with
  | some t =>
    if 0 < t.length then
      { st with transcript :=
          if d.is_final then appendFinalText t st.transcript
          else interimText t st.transcript }
    else st
  | none => st

/-- The `ws.onmessage` handler of `useWebSocket.ts` (lines 30-81) as a pure
transformer of the transcript state.  `none` models a payload on which
`JSON.parse` throws: the surrounding `try`/`catch` turns it into a no-op. -/
def onMessage (payload : Option TranscriptResponse) (st : WsState) : WsState :=
  match payload with
  | none => st
  | some d =>
    match d.segments with
    | some segs =>
      if 0 < segs.length then
        { transcriptSegments :=
            if d.is_final then st.transcriptSegments ++ segs
            else st.transcriptSegments.filter confPos ++ segs
          transcript :=
            if d.is_final then appendFinalText (segText segs) st.transcript
            else interimText (segText segs) st.transcript }
      else oldFormat d st
    | none => oldFormat d st

/-- Process a whole sequence of incoming payloads, in arrival order. -/
def runPayloads (msgs : List (Option TranscriptResponse)) (st : WsState) : WsState :=
  msgs.foldl (fun s m => onMessage m s) st

/-- A recognition event as the spec describes it (§3 `RecognitionEvent`):
a finality flag plus an ordered list of segments. -/
structure RecognitionEvent where
  isFinal : Bool
  segments : List TranscriptSegment
deriving DecidableEq, Repr

/-- A recognition event as it reaches the handler: a parsed JSON payload in
the segments format, with no legacy `transcript` field. -/
def toPayload (e : RecognitionEvent) : Option TranscriptResponse :=
  some { is_final := e.isFinal, segments := some e.segments, transcript := none }

/-- A final-format payload carrying the given segments. -/
def finalPayload (segs : List TranscriptSegment) : Option TranscriptResponse :=
  toPayload ⟨true, segs⟩

/-- An interim-format payload carrying the given segments. -/
def interimPayload (segs : List TranscriptSegment) : Option TranscriptResponse :=
  toPayload ⟨false, segs⟩

/-! ## The spec's rendering rule (claim C1), stated from the spec's words -/

/-- The claim's reading of an event's text: the concatenation of its segment
texts (spec §8: "the concatenation of all isFinal=true segment texts"). -/
def specEventText (e : RecognitionEvent) : Str :=
  (e.segments.map (fun s => s.text)).flatten

/-- The pending interim text after a sequence of events, per the spec: the
text of the most recent `isFinal=false` event, unless a final event arrived
after it. -/
def specPending (evs : List RecognitionEvent) : Option Str :=
  evs.foldl (fun _ e => if e.isFinal then none else some (specEventText e)) none

/-- The spec's rendered transcript (§4.4 Rendering / §8 first property):
concatenation of all final event texts in arrival order, followed by the
pending interim text, if any. -/
def specRendered (evs : List RecognitionEvent) : Str :=
  ((evs.filter (fun e => e.isFinal)).map specEventText).flatten
    ++ (specPending evs).getD []

/-! ## Provider catalog model
(`src/frontend/src/services/providerService.ts`, `src/frontend/src/hooks/useProviders.ts`) -/

/-- `provider_type` values of `ProviderMetadata` in `types/index.ts`. -/
inductive ProviderType where
  | stt
  | llm
deriving DecidableEq, Repr

/-- `ProviderMetadata` from `types/index.ts`.  The `config_schema` object
(typed `Record<string, unknown>` in the source and never inspected by the
code under verification) is modelled as a key/value list of strings. -/
structure ProviderMetadata where
  name : Str
  display_name : Str
  description : Str
  version : Str
  provider_type : ProviderType
  requires_api_key : Bool
  config_schema : List (Str × Str)
  supported_models : List Str
  default_model : Str
  capabilities : List Str
  author : Str
  homepage : Str
deriving DecidableEq, Repr

/-- The possible outcomes of the `fetch` call inside
`ProviderService.fetchProviders`, as enumerated by claim C9. -/
inductive FetchOutcome where
  | success (providers : List ProviderMetadata)
  | networkError
  | timeout
  | httpError (status : Nat) (body : Str)
  | parseError
deriving Repr

/-- `true` for every non-success fetch outcome. -/
def isFetchError : FetchOutcome → Bool
  | .success _ => false
  | .networkError => true
  | .timeout => true
  | .httpError _ _ => true
  | .parseError => true

/-- `ProviderService.fetchProviders` (providerService.ts lines 21-52): the
`try` block returns the parsed provider list; every failure path (network
rejection, timeout abort, non-OK status which `throw`s, body parse failure)
lands in the `catch`, which returns an empty array. -/
def fetchProviders : FetchOutcome → List ProviderMetadata
  | .success ps => ps
  | .networkError => []
  | .timeout => []
  | .httpError _ _ => []
  | .parseError => []

/-- The mutable fields of the `ProviderService` singleton. -/
structure ProviderServiceState where
  llmProvidersCache : Option (List ProviderMetadata)
  sttProvidersCache : Option (List ProviderMetadata)
  lastLlmFetch : Nat
  lastSttFetch : Nat
deriving Repr

/-- `this.cacheExpiry = 5 * 60 * 1000` (milliseconds). -/
def cacheExpiry : Nat := 5 * 60 * 1000

/-- `ProviderService.getLlmProviders` (lines 54-66).  `now` is `Date.now()`
and `outcome` is what the underlying fetch would produce if performed.
A non-null cache (any array is truthy in JS, even an empty one) younger than
`cacheExpiry` is returned as is unless `forceRefresh` is set; otherwise the
fetch result is cached and returned. -/
def getLlmProviders (forceRefresh : Bool) (now : Nat) (outcome : FetchOutcome)
    (st : ProviderServiceState) : List ProviderMetadata × ProviderServiceState :=
  let refreshed :=
    let ps := fetchProviders outcome
    (ps, { st with llmProvidersCache := some ps, lastLlmFetch := now })
  match forceRefresh, st.llmProvidersCache with
  | false, some c =>
    if now - st.lastLlmFetch < cacheExpiry then (c, st) else refreshed
  | _, _ => refreshed

/-- `ProviderService.getSttProviders` (lines 68-80): identical logic on the
STT cache fields. -/
def getSttProviders (forceRefresh : Bool) (now : Nat) (outcome : FetchOutcome)
    (st : ProviderServiceState) : List ProviderMetadata × ProviderServiceState :=
  let refreshed :=
    let ps := fetchProviders outcome
    (ps, { st with sttProvidersCache := some ps, lastSttFetch := now })
  match forceRefresh, st.sttProvidersCache with
  | false, some c =>
    if now - st.lastSttFetch < cacheExpiry then (c, st) else refreshed
  | _, _ => refreshed

/-- `ProviderService.getDefaultProvider` (lines 98-105):
`providers.length > 0 ? providers[0] : undefined`. -/
def getDefaultProvider (providers : List ProviderMetadata) : Option ProviderMetadata :=
  match providers with
  | [] => none
  | p :: _ => some p

/-- The selection state of the `useProviders` hook: `selectedProvider` and
`selectedModel`, both initially the empty string. -/
structure SelectionState where
  selectedProvider : Str
  selectedModel : Str
deriving DecidableEq, Repr

/-- The default-selection step of `useProviders.loadProviders` (lines 26-31):
when no provider is selected yet (the empty string is falsy) and the loaded
list is non-empty, select the first provider and its default model. -/
def loadProvidersSelect (providersData : List ProviderMetadata)
    (st : SelectionState) : SelectionState :=
  if st.selectedProvider = [] then
    match providersData with
    | [] => st
    | p :: _ => ⟨p.name, p.default_model⟩
  else st

/-- `useProviders.selectProvider` (lines 50-56): look the name up in the
loaded provider list; on a hit set both the provider name and that
provider's default model, otherwise do nothing. -/
def selectProvider (providers : List ProviderMetadata) (providerName : Str)
    (st : SelectionState) : SelectionState :=
  match providers.find? (fun p => p.name == providerName) with
  | some p => ⟨providerName, p.default_model⟩
  | none => st

/-- The registry error named by the spec (§4.1, §7). -/
inductive RegistryError where
  | NoProviderAvailableError
deriving DecidableEq, Repr

/-- Follows the spec's words (§4.1): "resolveDefault(kind): returns the first
registered descriptor of that kind; fails with NoProviderAvailableError if
none registered."  Stated over the catalog list of one kind, for comparison
with the code's `getDefaultProvider`. -/
def resolveDefault (providers : List ProviderMetadata) :
    Except RegistryError ProviderMetadata :=
  match providers with
  | [] => .error .NoProviderAvailableError
  | p :: _ => .ok p

/-! ## Chat stream consumption model
(`src/frontend/src/components/ChatInterface.tsx`, lines 82-115) -/

/-- A parsed server-sent data object: `{chunk}`, `{done}` or `{error}`. -/
inductive ChatData where
  | chunk (s : Str)
  | done
  | err (s : Str)
deriving DecidableEq, Repr

/-- One line of the response stream as the loop classifies it: a line not
starting with `data: ` (skipped), a `data: ` line whose JSON fails to parse
(caught and skipped), or a parsed data object. -/
inductive SSELine where
  | notData
  | badJson
  | data (d : ChatData)
deriving DecidableEq, Repr

/-- `true` exactly on `data: ` lines carrying a `{chunk}` object. -/
def isChunk : SSELine → Bool
  | .data (.chunk _) => true
  | _ => false

/-- The chunk text carried by a line (empty for non-chunk lines). -/
def chunkText : SSELine → Str
  | .data (.chunk s) => s
  | _ => []

/-- The streaming read loop of `ChatInterface.sendMessage`, as a function
from the stream's lines to the assistant message content.  A `{chunk}` line
appends its text to the content; `{done}` sets `streamDone`, breaks out and
ends consumption; an `{error}` line `throw`s, but the `throw` is inside the
inner `try`, whose `catch` merely logs, so the loop continues; non-data and
unparseable lines are skipped. -/
def consumeLines : List SSELine → Str → Str
  | [], acc => acc
  | .notData :: rest, acc => consumeLines rest acc
  | .badJson :: rest, acc => consumeLines rest acc
  | .data (.chunk s) :: rest, acc => consumeLines rest (acc ++ s)
  | .data .done :: _, acc => acc
  | .data (.err _) :: rest, acc => consumeLines rest acc

/-- An incoming payload on which the handler is specified to do nothing:
either `JSON.parse` throws, or the parsed object has no non-empty `segments`
array and no truthy legacy `transcript` string. -/
def noOpPayload (p : Option TranscriptResponse) : Prop :=
  p = none ∨ ∃ d, p = some d
    ∧ (d.segments = none ∨ d.segments = some [])
    ∧ (d.transcript = none ∨ d.transcript = some [])

/-- A concrete provider descriptor, used by witnesses. -/
def demoProvider : ProviderMetadata :=
  ⟨("demo-llm").data, ("Demo LLM").data, ("demo provider").data, ("1.0.0").data,
   ProviderType.llm, false, [], [("m1").data], ("m1").data, [],
   ("nobody").data, ("http://localhost").data⟩

theorem splitSpaces_ne_nil (cs : Str) : splitSpaces cs ≠ [] := by
  induction cs with
  | nil => simp [splitSpaces]
  | cons c rest ih =>
    simp only [splitSpaces]
    split
    · simp
    · split
      · simp
      · simp

theorem mem_splitSpaces_no_space {w : Str} {cs : Str}
    (h : w ∈ splitSpaces cs) : ' ' ∉ w := by
  induction cs generalizing w with
  | nil =>
    simp [splitSpaces] at h
    simp [h]
  | cons c rest ih =>
    simp only [splitSpaces] at h
    by_cases hc : c = ' '
    · rw [if_pos hc] at h
      rcases List.mem_cons.mp h with h1 | h1
      · simp [h1]
      · exact ih h1
    · rw [if_neg hc] at h
      rcases hw : splitSpaces rest with _ | ⟨u, us⟩
      · exact absurd hw (splitSpaces_ne_nil rest)
      · rw [hw] at h
        rcases List.mem_cons.mp h with h1 | h1
        · subst h1
          intro hmem
          rcases List.mem_cons.mp hmem with h2 | h2
          · exact hc h2.symm
          · exact ih (hw ▸ List.mem_cons_self u us) h2
        · exact ih (hw ▸ List.mem_cons_of_mem u h1)

theorem splitSpaces_append_space (xs ys : Str) :
    splitSpaces (xs ++ ' ' :: ys) = splitSpaces xs ++ splitSpaces ys := by
  induction xs with
  | nil => simp [splitSpaces]
  | cons c rest ih =>
    simp only [List.cons_append, splitSpaces, List.append_eq]
    by_cases hc : c = ' '
    · rw [if_pos hc, if_pos hc, ih, List.cons_append]
    · rw [if_neg hc, if_neg hc, ih]
      rcases hw : splitSpaces rest with _ | ⟨u, us⟩
      · exact absurd hw (splitSpaces_ne_nil rest)
      · simp

theorem splitSpaces_of_no_space {cs : Str} (h : ' ' ∉ cs) :
    splitSpaces cs = [cs] := by
  induction cs with
  | nil => rfl
  | cons c rest ih =>
    have hc : c ≠ ' ' := fun hx => h (hx ▸ List.mem_cons_self c rest)
    have hr : ' ' ∉ rest := fun hx => h (List.mem_cons_of_mem c hx)
    simp only [splitSpaces, if_neg hc, ih hr]

theorem splitSpaces_joinSpaces {ws : List Str} (hne : ws ≠ [])
    (h : ∀ w ∈ ws, ' ' ∉ w) : splitSpaces (joinSpaces ws) = ws := by
  induction ws with
  | nil => exact absurd rfl hne
  | cons w rest ih =>
    rcases rest with _ | ⟨u, us⟩
    · exact splitSpaces_of_no_space (h w (List.mem_cons_self w []))
    · have hj : joinSpaces (w :: u :: us) = w ++ ' ' :: joinSpaces (u :: us) := rfl
      rw [hj, splitSpaces_append_space,
        splitSpaces_of_no_space (h w (List.mem_cons_self w (u :: us))),
        ih (by simp) (fun v hv => h v (List.mem_cons_of_mem w hv))]
      rfl

/-- `interimText` with its two `let` bindings unfolded. -/
theorem interimText_eq (txt q : Str) :
    interimText txt q
      = joinSpaces (splitSpaces q).dropLast
        ++ (if 0 < (splitSpaces q).dropLast.length then [' '] else []) ++ txt := rfl

/-- Splitting the result of an interim update whose new text is space-free
recovers the retained parts followed by the new text as a single part. -/
theorem splitSpaces_interimText {txt : Str} (prev : Str) (h : ' ' ∉ txt) :
    splitSpaces (interimText txt prev) = (splitSpaces prev).dropLast ++ [txt] := by
  rw [interimText_eq]
  rcases hF : (splitSpaces prev).dropLast with _ | ⟨f, fs⟩
  · simp [joinSpaces, splitSpaces_of_no_space h]
  · have hlen : 0 < (f :: fs).length := by simp
    rw [if_pos hlen, List.append_assoc, List.singleton_append,
      splitSpaces_append_space,
      splitSpaces_joinSpaces (by simp)
        (fun w hw => mem_splitSpaces_no_space
          (List.dropLast_subset _ (by rw [hF]; exact hw))),
      splitSpaces_of_no_space h]

/-- Applying the interim text update twice with the same space-free text is
the same as applying it once. -/
theorem interimText_idem {txt : Str} (prev : Str) (h : ' ' ∉ txt) :
    interimText txt (interimText txt prev) = interimText txt prev := by
  rw [interimText_eq txt (interimText txt prev), splitSpaces_interimText prev h,
    show ((splitSpaces prev).dropLast ++ [txt]).dropLast = (splitSpaces prev).dropLast
      from by simp, interimText_eq txt prev]

/-- Filtering twice with the same predicate equals filtering once. -/
theorem filter_filter_self {α : Type} (p : α → Bool) (l : List α) :
    (l.filter p).filter p = l.filter p := by
  induction l with
  | nil => rfl
  | cons a l ih =>
    by_cases h : p a = true
    · simp [List.filter_cons, h, ih]
    · simp [List.filter_cons, h, ih]

/-- The interim branch of `onMessage` on a non-empty segment list, written
out: the rendered text gets the interim update and the stored segments are
the positively-confident previous ones followed by the new ones. -/
theorem onMessage_interim (a : TranscriptSegment) (l : List TranscriptSegment)
    (st : WsState) :
    onMessage (interimPayload (a :: l)) st
      = ⟨interimText (segText (a :: l)) st.transcript,
         st.transcriptSegments.filter confPos ++ (a :: l)⟩ := by
  simp [onMessage, interimPayload, toPayload]

/-- The final branch of `onMessage` on a non-empty segment list, written out:
the event text plus a trailing space is appended to the rendered text and the
segments are appended to the stored list. -/
theorem onMessage_final (a : TranscriptSegment) (l : List TranscriptSegment)
    (st : WsState) :
    onMessage (finalPayload (a :: l)) st
      = ⟨appendFinalText (segText (a :: l)) st.transcript,
         st.transcriptSegments ++ (a :: l)⟩ := by
  simp [onMessage, finalPayload, toPayload]

/-! ## Claim theorems -/

/-- C1 (amended): for sequences consisting only of final events with
non-empty segment lists, the rendered transcript is the starting text
followed by, for each event in arrival order, the event's segment texts
joined with single spaces plus one trailing space.  The claim's rendering
rule fails for interim events (see the counterexample). -/
theorem final_only_render_concat (evs : List (List TranscriptSegment))
    (st : WsState) (h : ∀ segs ∈ evs, segs ≠ []) :
    (runPayloads (evs.map finalPayload) st).transcript
      = st.transcript ++ (evs.map (fun segs => segText segs ++ [' '])).flatten := by
  induction evs generalizing st with
  | nil => simp [runPayloads]
  | cons segs rest ih =>
    rcases segs with _ | ⟨a, l⟩
    · exact absurd rfl (h [] (List.mem_cons_self [] rest))
    · have hrun : runPayloads (((a :: l) :: rest).map finalPayload) st
          = runPayloads (rest.map finalPayload)
              (onMessage (finalPayload (a :: l)) st) := rfl
      rw [hrun, onMessage_final,
        ih _ (fun s hsm => h s (List.mem_cons_of_mem _ hsm))]
      simp [appendFinalText]

/-- Witness for C1's theorem at a concrete two-event final-only sequence. -/
theorem final_only_render_concat_witness :
    (∀ segs ∈ [[(⟨("a").data, ("A").data, 0, 1, none⟩ : TranscriptSegment)],
                [(⟨("b").data, ("B").data, 1, 2, none⟩ : TranscriptSegment)]],
        segs ≠ []) ∧
    (runPayloads
        ([[(⟨("a").data, ("A").data, 0, 1, none⟩ : TranscriptSegment)],
          [(⟨("b").data, ("B").data, 1, 2, none⟩ : TranscriptSegment)]].map
          finalPayload) initState).transcript = ("a b ").data :=
  ⟨by decide, by
    rw [final_only_render_concat _ initState (by decide)]
    decide⟩

/-- Counterexample to C1 as stated: for the sequence interim "hel" then final
"hello there" the code renders "helhello there " (the pending interim text is
kept and a trailing space is added), while the claimed rendering rule gives
"hello there". -/
theorem render_spec_mismatch :
    (runPayloads
        ([⟨false, [⟨("hel").data, ("A").data, 0, 3/10, none⟩]⟩,
          ⟨true, [⟨("hello there").data, ("A").data, 0, 1, none⟩]⟩].map toPayload)
        initState).transcript
      ≠ specRendered
          [⟨false, [⟨("hel").data, ("A").data, 0, 3/10, none⟩]⟩,
           ⟨true, [⟨("hello there").data, ("A").data, 0, 1, none⟩]⟩] := by decide

/-- C2 (amended): on the spec's three-event scenario the handler leaves the
rendered transcript exactly "hellohello there ": the final event appends its
text and a trailing space without removing the pending interim text "hello". -/
theorem scenario_render_value :
    (runPayloads
      [interimPayload [⟨("hel").data, ("A").data, 0, 3/10, none⟩],
       interimPayload [⟨("hello").data, ("A").data, 0, 1/2, none⟩],
       finalPayload [⟨("hello there").data, ("A").data, 0, 1, none⟩]]
      initState).transcript = ("hellohello there ").data := by decide

/-- Counterexample to C2 as stated: the scenario does not render
"hello there". -/
theorem scenario_render_not_spec :
    (runPayloads
      [interimPayload [⟨("hel").data, ("A").data, 0, 3/10, none⟩],
       interimPayload [⟨("hello").data, ("A").data, 0, 1/2, none⟩],
       finalPayload [⟨("hello there").data, ("A").data, 0, 1, none⟩]]
      initState).transcript ≠ ("hello there").data := by decide

/-- C3 (amended): processing an identical interim event twice is idempotent
provided no segment of the event has a defined positive confidence and the
event's joined segment text contains no space character (in particular for a
single one-word segment without confidence).  Without these side conditions
idempotence fails (see the counterexample). -/
theorem interim_idempotent_nospace (segs : List TranscriptSegment)
    (st : WsState) (hconf : ∀ s ∈ segs, confPos s = false)
    (hsp : ' ' ∉ segText segs) :
    onMessage (interimPayload segs) (onMessage (interimPayload segs) st)
      = onMessage (interimPayload segs) st := by
  rcases segs with _ | ⟨a, l⟩
  · rfl
  · have hfilter : (a :: l).filter confPos = [] :=
      List.filter_eq_nil_iff.mpr (fun s hs => by simp [hconf s hs])
    rw [onMessage_interim a l st, onMessage_interim]
    simp only [interimText_idem _ hsp, List.filter_append, hfilter,
      List.append_nil, filter_filter_self]

/-- Witness for C3's theorem: one interim event with a single one-word,
confidence-free segment applied twice from the empty state. -/
theorem interim_idempotent_nospace_witness :
    (∀ s ∈ [(⟨("hi").data, ("A").data, 0, 1, none⟩ : TranscriptSegment)],
        confPos s = false) ∧
    ' ' ∉ segText [(⟨("hi").data, ("A").data, 0, 1, none⟩ : TranscriptSegment)] ∧
    onMessage (interimPayload [⟨("hi").data, ("A").data, 0, 1, none⟩])
        (onMessage (interimPayload [⟨("hi").data, ("A").data, 0, 1, none⟩]) initState)
      = onMessage (interimPayload [⟨("hi").data, ("A").data, 0, 1, none⟩]) initState :=
  ⟨by decide, by decide,
    interim_idempotent_nospace _ initState (by decide) (by decide)⟩

/-- Counterexample to C3 as stated: an interim event with the two-word
segment text "hello there" is not idempotent — the second application renders
"hello hello there" because only the last space-separated word is replaced. -/
theorem interim_not_idempotent :
    onMessage (interimPayload [⟨("hello there").data, ("A").data, 0, 1, none⟩])
        (onMessage (interimPayload [⟨("hello there").data, ("A").data, 0, 1, none⟩])
          initState)
      ≠ onMessage (interimPayload [⟨("hello there").data, ("A").data, 0, 1, none⟩])
          initState := by decide

/-- C4 (amended): an event with `is_final = true` and an empty segments list
(and no truthy legacy `transcript` field) is a complete no-op: both the
rendered text and the stored segment list are left unchanged.  It does not
clear the pending interim data (see the counterexample). -/
theorem empty_final_noop (st : WsState) (tr : Option Str)
    (h : tr = none ∨ tr = some []) :
    onMessage (some ⟨true, some [], tr⟩) st = st := by
  rcases h with h | h <;> subst h <;> rfl

/-- Witness for C4's theorem at a concrete state. -/
theorem empty_final_noop_witness :
    ((none : Option Str) = none ∨ (none : Option Str) = some []) ∧
    onMessage (some ⟨true, some [], none⟩)
        (⟨("hi").data, [⟨("hi").data, ("A").data, 0, 1, none⟩]⟩ : WsState)
      = ⟨("hi").data, [⟨("hi").data, ("A").data, 0, 1, none⟩]⟩ :=
  ⟨Or.inl rfl, empty_final_noop _ none (Or.inl rfl)⟩

/-- Counterexample to C4 as stated: the empty final event does not clear the
pending interim.  After interim "hi", empty final, final "ok" the code
renders "hiok ", still containing the interim text, whereas processing only
final "ok" renders "ok " — so the interim set was not cleared. -/
theorem empty_final_keeps_interim :
    (runPayloads
      [interimPayload [⟨("hi").data, ("A").data, 0, 1, none⟩],
       finalPayload [],
       finalPayload [⟨("ok").data, ("A").data, 1, 2, none⟩]]
      initState).transcript
    ≠ (runPayloads
        [finalPayload [⟨("ok").data, ("A").data, 1, 2, none⟩]]
        initState).transcript := by decide

/-- C5 (amended): an interim event replaces the previously pending interim
segments wholesale only when none of them has a defined positive confidence:
in that case two consecutive interim events leave exactly the previously
stored positively-confident segments followed by the second event's segments.
A previous interim segment with positive confidence survives (see the
counterexample). -/
theorem interim_replace_only_unconfident (st : WsState)
    (segs1 segs2 : List TranscriptSegment)
    (h1 : segs1 ≠ []) (h2 : segs2 ≠ [])
    (hconf : ∀ s ∈ segs1, confPos s = false) :
    (runPayloads [interimPayload segs1, interimPayload segs2] st).transcriptSegments
      = st.transcriptSegments.filter confPos ++ segs2 := by
  rcases segs1 with _ | ⟨a, l⟩
  · exact absurd rfl h1
  rcases segs2 with _ | ⟨b, m⟩
  · exact absurd rfl h2
  have hfilter : (a :: l).filter confPos = [] :=
    List.filter_eq_nil_iff.mpr (fun s hs => by simp [hconf s hs])
  have hrun : runPayloads [interimPayload (a :: l), interimPayload (b :: m)] st
      = onMessage (interimPayload (b :: m)) (onMessage (interimPayload (a :: l)) st) :=
    rfl
  rw [hrun, onMessage_interim a l st, onMessage_interim]
  simp [List.filter_append, hfilter, filter_filter_self]

/-- Witness for C5's theorem: a confidence-free interim segment is fully
replaced by the following interim event. -/
theorem interim_replace_only_unconfident_witness :
    ([(⟨("foo").data, ("A").data, 0, 1, none⟩ : TranscriptSegment)] ≠ []) ∧
    ([(⟨("bar").data, ("A").data, 1, 2, none⟩ : TranscriptSegment)] ≠ []) ∧
    (∀ s ∈ [(⟨("foo").data, ("A").data, 0, 1, none⟩ : TranscriptSegment)],
        confPos s = false) ∧
    (runPayloads
        [interimPayload [⟨("foo").data, ("A").data, 0, 1, none⟩],
         interimPayload [⟨("bar").data, ("A").data, 1, 2, none⟩]]
        initState).transcriptSegments
      = [⟨("bar").data, ("A").data, 1, 2, none⟩] :=
  ⟨by decide, by decide, by decide, by
    rw [interim_replace_only_unconfident initState _ _ (by decide) (by decide)
      (by decide)]
    decide⟩

/-- Counterexample to C5 as stated: an interim segment delivered with
confidence 9/10 survives the next interim event — it remains in the stored
pending segment list instead of being replaced wholesale. -/
theorem interim_segment_survives :
    (⟨("foo").data, ("A").data, 0, 1, some 1⟩ : TranscriptSegment) ∈
      (runPayloads
        [interimPayload [⟨("foo").data, ("A").data, 0, 1, some 1⟩],
         interimPayload [⟨("bar").data, ("A").data, 1, 2, none⟩]]
        initState).transcriptSegments := by decide

/-- C6: the `onmessage` handler is a total function of the payload (the
`try`/`catch` confines any `JSON.parse` failure), and on every malformed
payload — an unparseable message, or a parsed object with no non-empty
`segments` array and no truthy `transcript` string — the transcript state is
left exactly unchanged. -/
theorem malformed_noop (p : Option TranscriptResponse) (st : WsState)
    (h : noOpPayload p) : onMessage p st = st := by
  rcases h with h | ⟨d, hp, hs, ht⟩
  · subst h; rfl
  · subst hp
    rcases d with ⟨f, s?, t?⟩
    rcases hs with hs | hs <;> subst hs <;>
      rcases ht with ht | ht <;> subst ht <;> rfl

/-- Witness for C6's theorem: an unparseable payload leaves a concrete
non-empty state unchanged. -/
theorem malformed_noop_witness :
    noOpPayload (none : Option TranscriptResponse) ∧
    onMessage none (⟨("x").data, []⟩ : WsState) = ⟨("x").data, []⟩ :=
  ⟨Or.inl rfl, malformed_noop none _ (Or.inl rfl)⟩

/-- C7 (amended): resolving the default provider of a kind returns the first
descriptor of the loaded catalog list, and the load step of `useProviders`
selects that descriptor's name and default model when nothing is selected
yet; on an empty catalog the resolution returns undefined (modelled `none`)
and the selection is left unchanged — no error is raised. -/
theorem default_provider_first (l : List ProviderMetadata) (st : SelectionState) :
    (l = [] → getDefaultProvider l = none ∧ loadProvidersSelect l st = st)
    ∧ (∀ p rest, l = p :: rest →
        getDefaultProvider l = some p
        ∧ (st.selectedProvider = [] →
            loadProvidersSelect l st = ⟨p.name, p.default_model⟩)) := by
  constructor
  · intro h
    subst h
    refine ⟨rfl, ?_⟩
    simp only [loadProvidersSelect]
    split <;> rfl
  · intro p rest h
    subst h
    exact ⟨rfl, fun hsel => by simp [loadProvidersSelect, hsel]⟩

/-- Witness for C7's theorem on a one-provider catalog with an empty
selection. -/
theorem default_provider_first_witness :
    getDefaultProvider [demoProvider] = some demoProvider ∧
    loadProvidersSelect [demoProvider] ⟨[], []⟩
      = ⟨demoProvider.name, demoProvider.default_model⟩ := by
  have h := (default_provider_first [demoProvider] ⟨[], []⟩).2 demoProvider [] rfl
  exact ⟨h.1, h.2 rfl⟩

/-- Counterexample to C7 as stated: on an empty catalog the code resolves to
undefined (`none`) as an ordinary return value and leaves the selection
untouched — it does not fail with `NoProviderAvailableError` the way the
spec's `resolveDefault` (modelled here from the spec's words) does. -/
theorem default_provider_empty_none :
    getDefaultProvider [] = none
    ∧ resolveDefault [] = Except.error RegistryError.NoProviderAvailableError
    ∧ loadProvidersSelect [] ⟨[], []⟩ = ⟨[], []⟩ :=
  ⟨rfl, rfl, rfl⟩

/-- C8: chunk data lines are appended to the assistant message content in
arrival order with nothing else interleaved, and the `done` marker ends
consumption — lines after it are never processed. -/
theorem chat_stream_concat (pre rest : List SSELine) (acc : Str)
    (h : ∀ ln ∈ pre, isChunk ln = true) :
    consumeLines (pre ++ SSELine.data ChatData.done :: rest) acc
      = acc ++ (pre.map chunkText).flatten := by
  induction pre generalizing acc with
  | nil => simp [consumeLines]
  | cons ln pre ih =>
    have hln := h ln (List.mem_cons_self ln pre)
    rcases ln with _ | _ | d
    · simp [isChunk] at hln
    · simp [isChunk] at hln
    · rcases d with s | _ | s
      · have hstep : consumeLines
            ((SSELine.data (ChatData.chunk s) :: pre)
              ++ SSELine.data ChatData.done :: rest) acc
            = consumeLines (pre ++ SSELine.data ChatData.done :: rest) (acc ++ s) :=
          rfl
        rw [hstep, ih (acc ++ s) (fun x hx => h x (List.mem_cons_of_mem _ hx))]
        simp [chunkText]
      · simp [isChunk] at hln
      · simp [isChunk] at hln

/-- Witness for C8's theorem: the spec's scenario stream Sum, mary, done
(followed by an extra chunk that must be ignored) yields exactly "Summary". -/
theorem chat_stream_concat_witness :
    (∀ ln ∈ [SSELine.data (ChatData.chunk ("Sum").data),
             SSELine.data (ChatData.chunk ("mary").data)], isChunk ln = true) ∧
    consumeLines
      ([SSELine.data (ChatData.chunk ("Sum").data),
        SSELine.data (ChatData.chunk ("mary").data)]
        ++ SSELine.data ChatData.done :: [SSELine.data (ChatData.chunk ("X").data)]) []
      = ("Summary").data :=
  ⟨by decide, by
    rw [chat_stream_concat _ _ _ (by decide)]
    decide⟩

/-- C9: `fetchProviders` maps every non-success outcome to the empty list
(the `catch` returns `[]` instead of rethrowing), so the cached getters never
reject: on a fetch error each returns either the empty list or a previously
cached list, never a propagated error. -/
theorem providers_fetch_error_empty (o : FetchOutcome) (force : Bool)
    (now : Nat) (st : ProviderServiceState) (h : isFetchError o = true) :
    fetchProviders o = []
    ∧ ((getLlmProviders force now o st).1 = []
        ∨ ∃ c, st.llmProvidersCache = some c
            ∧ (getLlmProviders force now o st).1 = c)
    ∧ ((getSttProviders force now o st).1 = []
        ∨ ∃ c, st.sttProvidersCache = some c
            ∧ (getSttProviders force now o st).1 = c) := by
  have hf : fetchProviders o = [] := by
    cases o <;> simp_all [isFetchError, fetchProviders]
  refine ⟨hf, ?_, ?_⟩
  · rcases force with _ | _
    · rcases hc : st.llmProvidersCache with _ | c
      · left
        simp [getLlmProviders, hc, hf]
      · by_cases ht : now - st.lastLlmFetch < cacheExpiry
        · right
          exact ⟨c, rfl, by simp [getLlmProviders, hc, ht]⟩
        · left
          simp [getLlmProviders, hc, ht, hf]
    · left
      simp [getLlmProviders, hf]
  · rcases force with _ | _
    · rcases hc : st.sttProvidersCache with _ | c
      · left
        simp [getSttProviders, hc, hf]
      · by_cases ht : now - st.lastSttFetch < cacheExpiry
        · right
          exact ⟨c, rfl, by simp [getSttProviders, hc, ht]⟩
        · left
          simp [getSttProviders, hc, ht, hf]
    · left
      simp [getSttProviders, hf]

/-- Witness for C9's theorem: a network failure with cold caches resolves to
the empty list on both getters. -/
theorem providers_fetch_error_empty_witness :
    isFetchError FetchOutcome.networkError = true ∧
    (fetchProviders FetchOutcome.networkError = []
      ∧ ((getLlmProviders true 0 FetchOutcome.networkError ⟨none, none, 0, 0⟩).1 = []
          ∨ ∃ c, (ProviderServiceState.mk none none 0 0).llmProvidersCache = some c
              ∧ (getLlmProviders true 0 FetchOutcome.networkError ⟨none, none, 0, 0⟩).1 = c)
      ∧ ((getSttProviders true 0 FetchOutcome.networkError ⟨none, none, 0, 0⟩).1 = []
          ∨ ∃ c, (ProviderServiceState.mk none none 0 0).sttProvidersCache = some c
              ∧ (getSttProviders true 0 FetchOutcome.networkError ⟨none, none, 0, 0⟩).1 = c)) :=
  ⟨rfl, providers_fetch_error_empty FetchOutcome.networkError true 0 ⟨none, none, 0, 0⟩ rfl⟩

/-- C10: `selectProvider` with a name not present in the loaded list leaves
the selection state unchanged; with a present name it sets the selected
provider to that name and the selected model to the default model of a
provider in the list bearing that name. -/
theorem selectProvider_lookup (providers : List ProviderMetadata)
    (nm : Str) (st : SelectionState) :
    ((∀ p ∈ providers, p.name ≠ nm) → selectProvider providers nm st = st)
    ∧ ((∃ p ∈ providers, p.name = nm) →
        (selectProvider providers nm st).selectedProvider = nm
        ∧ ∃ q ∈ providers, q.name = nm
            ∧ (selectProvider providers nm st).selectedModel = q.default_model) := by
  constructor
  · intro h
    have hfind : providers.find? (fun p => p.name == nm) = none :=
      List.find?_eq_none.mpr (fun x hx => by simp [h x hx])
    simp [selectProvider, hfind]
  · rintro ⟨p, hp, hname⟩
    have hsome : (providers.find? (fun p => p.name == nm)).isSome := by
      rw [List.find?_isSome]
      exact ⟨p, hp, by simp [hname]⟩
    obtain ⟨q, hq⟩ := Option.isSome_iff_exists.mp hsome
    have hqname : q.name = nm := by
      have := List.find?_some hq
      simpa using this
    have hqmem : q ∈ providers := List.mem_of_find?_eq_some hq
    exact ⟨by simp [selectProvider, hq], q, hqmem, hqname,
      by simp [selectProvider, hq]⟩

/-- Witness for C10's theorem: an unknown name is a no-op and a known name
selects that provider. -/
theorem selectProvider_lookup_witness :
    (∀ p ∈ [demoProvider], p.name ≠ ("nope").data) ∧
    selectProvider [demoProvider] ("nope").data ⟨[], []⟩ = ⟨[], []⟩ ∧
    (selectProvider [demoProvider] demoProvider.name ⟨[], []⟩).selectedProvider
      = demoProvider.name :=
  ⟨by decide,
   (selectProvider_lookup [demoProvider] (("nope").data) ⟨[], []⟩).1 (by decide),
   ((selectProvider_lookup [demoProvider] demoProvider.name ⟨[], []⟩).2
      ⟨demoProvider, List.mem_cons_self demoProvider [], rfl⟩).1⟩
